import Mathlib

/-!
Shallow embedding of `src/summary.py` (hubstaff-reporting): a linear pipeline
authenticate → fetch-all-pages → aggregate → export-to-CSV, together with
theorems settling the frozen claims about it.

Modelling conventions:
  * Python dicts for JSON payloads become structures with `Option` fields
    (a `none` field models an absent key, so `d.get(k, default)` becomes
    `Option.getD`).
  * `datetime` values are modelled as integer timestamps; Python ints are
    `Int` (arbitrary precision in both).
  * Python floats produced here are exact decimal hundredths
    (`round(x, 2)`), so they are modelled as rationals; `round` is Python's
    round-half-to-even.
  * HTTP traffic is modelled by passing the would-be responses as explicit
    arguments; a raised exception becomes `Except.error`.
  * The insertion-ordered Python dict built by `summarize_by_client` becomes
    an association list in which a fresh key is appended at the end,
    matching dict insertion order.
-/

set_option autoImplicit false

namespace Hubstaff

/-- One activity record from the activities endpoint.  Every field may be
absent in the JSON payload (`a.get(...)` in the source), hence `Option`. -/
structure Activity where
  client : Option String
  tracked : Option Int
  keyboard : Option Int
  mouse : Option Int
  input_tracked : Option Int
  deriving DecidableEq, Repr

/-- Running per-client totals, as initialised and accumulated by the first
loop of `summarize_by_client` (lines 107-120 of the source). -/
structure Stats where
  tracked : Int
  keyboard : Int
  mouse : Int
  input_tracked : Int
  deriving DecidableEq, Repr

/-- The zero entry `{"tracked": 0, "keyboard": 0, "mouse": 0,
"input_tracked": 0}` created on first sighting of a client. -/
def Stats.zero : Stats := ⟨0, 0, 0, 0⟩

/-- The four `+= a.get(field, 0)` accumulations of `summarize_by_client`. -/
def addStats (s : Stats) (a : Activity) : Stats :=
  { tracked := s.tracked + a.tracked.getD 0
    keyboard := s.keyboard + a.keyboard.getD 0
    mouse := s.mouse + a.mouse.getD 0
    input_tracked := s.input_tracked + a.input_tracked.getD 0 }

/-- The key an activity is aggregated under: `a.get("client", "unknown")`. -/
def clientKey (a : Activity) : String := a.client.getD "unknown"

/-- Python dict update with insertion order: `summary[client]` is updated in
place when the key exists, and a fresh zero entry (then accumulated) is
appended at the end when it does not. -/
def updateEntry (c : String) (a : Activity) : List (String × Stats) → List (String × Stats)
  | [] => [(c, addStats Stats.zero a)]
  | (k, s) :: rest =>
      if k = c then (k, addStats s a) :: rest else (k, s) :: updateEntry c a rest

/-- First loop of `summarize_by_client`: fold the activities into the
insertion-ordered per-client totals. -/
def summarize_core (activities : List Activity) : List (String × Stats) :=
  activities.foldl (fun summary a => updateEntry (clientKey a) a summary) []

/-- Python's `round` to an integer: round-half-to-even (banker's rounding). -/
def roundHalfEven (q : ℚ) : Int :=
  let f : Int := Rat.floor q
  let r : ℚ := q - (f : ℚ)
  if r < 1 / 2 then f
  else if 1 / 2 < r then f + 1
  else if f % 2 = 0 then f else f + 1

/-- Python's `round(x, 2)`: round to the nearest hundredth. -/
def round2 (q : ℚ) : ℚ := (roundHalfEven (q * 100) : ℚ) / 100

/-- One finalized per-client summary entry: the accumulated totals plus the
derived field `tracked_hours = round(tracked / 3600, 2)` (line 124). -/
structure ClientSummary where
  tracked : Int
  keyboard : Int
  mouse : Int
  input_tracked : Int
  tracked_hours : ℚ
  deriving DecidableEq, Repr

/-- Second loop of `summarize_by_client`: attach `tracked_hours` to each
entry. -/
def finalize (s : Stats) : ClientSummary :=
  { tracked := s.tracked
    keyboard := s.keyboard
    mouse := s.mouse
    input_tracked := s.input_tracked
    tracked_hours := round2 ((s.tracked : ℚ) / 3600) }

/-- The function `summarize_by_client` of the source (lines 104-126):
aggregate the activities per client, then derive `tracked_hours`. -/
def summarize_by_client (activities : List Activity) : List (String × ClientSummary) :=
  (summarize_core activities).map (fun p => (p.1, finalize p.2))

/-- First-match lookup in the association list, the counterpart of
`summary[client]` / `client in summary`. -/
def lookupStats (c : String) : List (String × Stats) → Option Stats
  | [] => none
  | (k, s) :: rest => if k = c then some s else lookupStats c rest

/-- First-match lookup in the finalized summary. -/
def lookupSummary (c : String) : List (String × ClientSummary) → Option ClientSummary
  | [] => none
  | (k, s) :: rest => if k = c then some s else lookupSummary c rest

/-- Sum of one metric over all summary entries. -/
def sumStats (f : Stats → Int) (l : List (String × Stats)) : Int :=
  (l.map (fun p => f p.2)).sum

/-- Sum of one metric over a list of activities with absent fields read
as 0. -/
def sumActs (g : Activity → Int) (l : List Activity) : Int :=
  (l.map g).sum

/-- Value of the `tracked` field of an activity as the aggregation reads
it. -/
def trackedOf (a : Activity) : Int := a.tracked.getD 0

/-- Value of the `keyboard` field of an activity as the aggregation reads
it. -/
def keyboardOf (a : Activity) : Int := a.keyboard.getD 0

/-- Value of the `mouse` field of an activity as the aggregation reads
it. -/
def mouseOf (a : Activity) : Int := a.mouse.getD 0

/-- Value of the `input_tracked` field of an activity as the aggregation
reads it. -/
def inputTrackedOf (a : Activity) : Int := a.input_tracked.getD 0

/-! Errors raised by the pipeline.  Each constructor corresponds to one
uncaught Python exception of the source. -/

/-- A fatal error unwinding the run: the `json.load` / field-extraction
exception of `get_access_token` (not caught anywhere), the exception raised
by `refresh_access_token` on a non-200 token response, or the exception
raised by `fetch_activities` on a non-200 page response. -/
inductive RunError where
  | jsonParse
  | authFailed (status : Nat) (body : String)
  | apiError (status : Nat) (body : String)
  deriving DecidableEq, Repr

/-! Token refresh and cache (lines 19-64 of the source). -/

/-- The parsed content of a well-formed `hubstaff_token.json` cache file:
the pair persisted by `get_access_token`.  Timestamps are integer seconds. -/
structure TokenData where
  access_token : String
  expires_at : Int
  deriving DecidableEq, Repr

/-- State of the token cache file as `get_access_token` finds it: the file
may be missing, present but unparsable (malformed JSON, or a missing or
non-parsable field), or well-formed. -/
inductive CacheState where
  | absent
  | invalid
  | valid (td : TokenData)
  deriving DecidableEq, Repr

/-- The response the token endpoint would give to the refresh POST, fields
already split out of the JSON body. -/
structure TokenResponse where
  status : Nat
  body : String
  access_token : String
  refresh_token : String
  expires_in : Int
  deriving DecidableEq, Repr

/-- The function `refresh_access_token` of the source (lines 48-64): raise
on a non-200 status carrying the status code and response text, otherwise
return the triple `(access_token, refresh_token, expires_in)`. -/
def refresh_access_token (resp : TokenResponse) : Except RunError (String × String × Int) :=
  if resp.status ≠ 200 then Except.error (RunError.authFailed resp.status resp.body)
  else Except.ok (resp.access_token, resp.refresh_token, resp.expires_in)

/-- Observable outcome of `get_access_token`: the returned token, the state
of the cache file afterwards, and whether the refresh call was invoked. -/
structure TokenOutcome where
  token : String
  cacheAfter : CacheState
  refreshed : Bool
  deriving DecidableEq, Repr

/-- Refresh path of `get_access_token` (lines 35-46): call
`refresh_access_token`, then overwrite the cache file with exactly the pair
with the fresh token and `expires_at = now + (expires_in - 60)`.  The new
refresh token returned by the provider is discarded. -/
def refreshAndCache (now : Int) (resp : TokenResponse) : Except RunError TokenOutcome :=
  match refresh_access_token resp with
  | Except.error e => Except.error e
  | Except.ok (tok, _newRefresh, expires_in) =>
      Except.ok ⟨tok, CacheState.valid ⟨tok, now + (expires_in - 60)⟩, true⟩

/-- The function `get_access_token` of the source (lines 19-46).  `now` is
`datetime.utcnow()`.  A missing file skips straight to the refresh; a file
that fails to parse raises (there is no try/except around `json.load`); a
well-formed file is returned as-is when `now < expires_at` and otherwise
triggers the refresh path. -/
def get_access_token (now : Int) (cache : CacheState) (resp : TokenResponse) :
    Except RunError TokenOutcome :=
  match cache with
  | CacheState.absent => refreshAndCache now resp
  | CacheState.invalid => Except.error RunError.jsonParse
  | CacheState.valid td =>
      if now < td.expires_at then Except.ok ⟨td.access_token, CacheState.valid td, false⟩
      else refreshAndCache now resp

/-! Paginated fetching (lines 67-101 of the source). -/

/-- One response of the activities endpoint.  `activities` is `none` when
the JSON body lacks the key (the source reads `data.get("activities", [])`);
`next_page_start_id` is `none` when the pagination object or the cursor key
is missing. -/
structure PageResponse where
  status : Nat
  body : String
  activities : Option (List Activity)
  next_page_start_id : Option String
  deriving DecidableEq, Repr

/-- Truthiness test of the loop exit `if not page_start_id: break`: the
loop continues only on a present, non-empty cursor (an empty string is
falsy in Python). -/
def cursorContinues : Option String → Bool
  | none => false
  | some s => s ≠ ""

/-- The `while True` loop of `fetch_activities`, consuming the sequence of
responses the activities endpoint would give, in request order.  Each pass
raises on a non-200 status, appends the page's activity list (absent list
read as empty), and exits unless the pagination cursor is truthy.  The
empty-transcript case is unreachable when the transcript covers the pages
the loop requests; it is mapped to the empty result. -/
def fetchLoop : List PageResponse → Except RunError (List Activity)
  | [] => Except.ok []
  | p :: rest =>
      if p.status ≠ 200 then Except.error (RunError.apiError p.status p.body)
      else
        match cursorContinues p.next_page_start_id, fetchLoop rest with
        | false, _ => Except.ok (p.activities.getD [])
        | true, Except.error e => Except.error e
        | true, Except.ok more => Except.ok (p.activities.getD [] ++ more)

/-- The function `fetch_activities` of the source (lines 67-101), as a
function of the endpoint's response sequence. -/
def fetch_activities (pages : List PageResponse) : Except RunError (List Activity) :=
  fetchLoop pages

/-! CSV export (lines 129-142 of the source). -/

/-- Python `str` of a float that is an exact multiple of 1/100 (the value
produced by `round(x, 2)`), given as `k` hundredths: the shortest decimal
form, with at least one digit after the point.  For the magnitudes this
script produces, `repr` of such a double prints exactly this string. -/
def renderHundredths (k : Int) : String :=
  let sign := if k < 0 then "-" else ""
  let n : Nat := k.natAbs
  let ipart : Nat := n / 100
  let f : Nat := n % 100
  let frac :=
    if f = 0 then "0"
    else if f % 10 = 0 then toString (f / 10)
    else if f < 10 then "0" ++ toString f
    else toString f
  sign ++ toString ipart ++ "." ++ frac

/-- Python `str` of a `tracked_hours` value (always a multiple of 1/100). -/
def render_float (q : ℚ) : String := renderHundredths (Rat.floor (q * 100))

/-- Membership of a character in a string. -/
def charIn (s : String) (c : Char) : Bool := s.data.any (fun x => x = c)

/-- Doubling of every quote character in a field being quoted. -/
def doubleQuotes : List Char → List Char
  | [] => []
  | c :: rest =>
      if c = '"' then c :: c :: doubleQuotes rest else c :: doubleQuotes rest

/-- Quoting rule of `csv.writer` with the default dialect (QUOTE_MINIMAL):
a field containing the delimiter, the quote character or a line-break
character is wrapped in quotes, with inner quotes doubled. -/
def csvQuote (s : String) : String :=
  if charIn s ',' || charIn s '"' || charIn s '\n' || charIn s '\r' then
    "\"" ++ String.mk (doubleQuotes s.data) ++ "\""
  else s

/-- One `writer.writerow(cells)` call: the cells, quoted as needed, joined
by commas. -/
def csvRow (cells : List String) : String := String.intercalate "," (cells.map csvQuote)

/-- The fixed header row written first by `export_to_csv` (line 132). -/
def headerCells : List String :=
  ["client", "tracked_seconds", "tracked_hours", "keyboard", "mouse", "input_tracked"]

/-- The cells of one data row of `export_to_csv` (lines 134-141):
`[client, stats.tracked, stats.tracked_hours, stats.keyboard, stats.mouse,
stats.input_tracked]`, each stringified by the csv writer. -/
def summaryCells (c : String) (s : ClientSummary) : List String :=
  [c, toString s.tracked, render_float s.tracked_hours,
   toString s.keyboard, toString s.mouse, toString s.input_tracked]

/-- The function `export_to_csv` of the source (lines 129-142), returning
the lines of the produced file: the header row, then one row per client in
iteration (= insertion) order of the summary. -/
def export_to_csv (summary : List (String × ClientSummary)) : List String :=
  csvRow headerCells :: summary.map (fun p => csvRow (summaryCells p.1 p.2))

/-- Splitting a character list at every occurrence of a separator; `acc`
holds the characters of the current cell in reverse. -/
def splitCharAux (sep : Char) : List Char → List Char → List (List Char)
  | [], acc => [acc.reverse]
  | c :: rest, acc =>
      if c = sep then acc.reverse :: splitCharAux sep rest []
      else splitCharAux sep rest (c :: acc)

/-- Accumulating decimal-digit parse; `acc = none` until a first digit has
been seen, and any non-digit character fails the parse. -/
def digitsToNat : List Char → Option Nat → Option Nat
  | [], acc => acc
  | c :: rest, acc =>
      if 48 ≤ c.toNat && c.toNat ≤ 57 then
        digitsToNat rest (some (acc.getD 0 * 10 + (c.toNat - 48)))
      else none

/-- Parse of a non-empty all-digit string. -/
def parseNatDigits (cs : List Char) : Option Nat := digitsToNat cs none

/-- Integer re-parsing of an unquoted CSV cell: optional leading minus,
then digits. -/
def parseInt (s : String) : Option Int :=
  match s.data with
  | '-' :: rest => (parseNatDigits rest).map (fun n => -(n : Int))
  | _ => (parseNatDigits s.data).map (fun n => (n : Int))

/-- Syntactic pieces of a decimal cell: sign flag, integer part, fractional
digits and their count. -/
structure DecParts where
  neg : Bool
  intPart : Nat
  fracPart : Nat
  fracLen : Nat
  deriving DecidableEq, Repr

/-- Decimal re-parsing of an unquoted CSV cell, syntactic phase: an
optional sign, an integer part, and an optional fractional part. -/
def parseDecParts (s : String) : Option DecParts :=
  let neg := s.data.head? = some '-'
  let t := if neg then s.data.tail else s.data
  match splitCharAux '.' t [] with
  | [i] => (parseNatDigits i).map (fun n => ⟨neg, n, 0, 0⟩)
  | [i, f] =>
      match parseNatDigits i, parseNatDigits f with
      | some ni, some nf => some ⟨neg, ni, nf, f.length⟩
      | _, _ => none
  | _ => none

/-- Numeric value of a parsed decimal cell. -/
def decValue (p : DecParts) : ℚ :=
  (if p.neg then -1 else 1) * ((p.intPart : ℚ) + (p.fracPart : ℚ) / (10 : ℚ) ^ p.fracLen)

/-- Decimal re-parsing of an unquoted CSV cell as an exact rational. -/
def parseDec (s : String) : Option ℚ := (parseDecParts s).map decValue

/-- Splitting an unquoted CSV line back into its cells. -/
def parseRow (line : String) : List String :=
  (splitCharAux ',' line.data []).map String.mk

/-! The `__main__` block (lines 145-153): authenticate, fetch, summarize,
export.  The console printing carries no further data flow. -/

/-- The main pipeline as a function of the environment it would observe:
the clock, the cache file, the token endpoint's response, and the
activities endpoint's response sequence.  Any raised exception aborts the
run before the later stages, and only a completed run produces CSV lines. -/
def run_main (now : Int) (cache : CacheState) (resp : TokenResponse)
    (pages : List PageResponse) : Except RunError (List String) :=
  match get_access_token now cache resp with
  | Except.error e => Except.error e
  | Except.ok _outcome =>
      match fetch_activities pages with
      | Except.error e => Except.error e
      | Except.ok acts => Except.ok (export_to_csv (summarize_by_client acts))

/-- Appending a key to a key list unless it is already present: how a
Python dict's key order evolves on one store. -/
def insertKey (ks : List String) (c : String) : List String :=
  if c ∈ ks then ks else ks ++ [c]

/-- First-seen order of a list of keys: the order in which a Python dict
indexed by them would enumerate its keys. -/
def firstSeen (cs : List String) : List String :=
  cs.foldl insertKey []

/-! Lemmas about the aggregation. -/

theorem sumStats_updateEntry (f : Stats → Int) (g : Activity → Int)
    (h0 : f Stats.zero = 0) (hadd : ∀ s a, f (addStats s a) = f s + g a)
    (c : String) (a : Activity) (l : List (String × Stats)) :
    sumStats f (updateEntry c a l) = sumStats f l + g a := by
  induction l with
  | nil => simp [updateEntry, sumStats, hadd, h0]
  | cons p rest ih =>
      obtain ⟨k, s⟩ := p
      by_cases h : k = c
      · simp [updateEntry, h, sumStats, hadd]
        ring
      · simp only [updateEntry, if_neg h]
        simp [sumStats] at ih ⊢
        omega

theorem sumStats_foldl (f : Stats → Int) (g : Activity → Int)
    (h0 : f Stats.zero = 0) (hadd : ∀ s a, f (addStats s a) = f s + g a)
    (acts : List Activity) (l : List (String × Stats)) :
    sumStats f (acts.foldl (fun summary a => updateEntry (clientKey a) a summary) l)
      = sumStats f l + sumActs g acts := by
  induction acts generalizing l with
  | nil => simp [sumActs]
  | cons a rest ih =>
      simp only [List.foldl_cons]
      rw [ih, sumStats_updateEntry f g h0 hadd]
      simp [sumActs]
      ring

theorem sumStats_summarize_core (f : Stats → Int) (g : Activity → Int)
    (h0 : f Stats.zero = 0) (hadd : ∀ s a, f (addStats s a) = f s + g a)
    (acts : List Activity) :
    sumStats f (summarize_core acts) = sumActs g acts := by
  have h := sumStats_foldl f g h0 hadd acts []
  simpa [summarize_core, sumStats] using h

/-- Sum of one metric over all finalized summary entries. -/
def sumSummary (F : ClientSummary → Int) (l : List (String × ClientSummary)) : Int :=
  (l.map (fun p => F p.2)).sum

theorem sumSummary_summarize (F : ClientSummary → Int) (f : Stats → Int)
    (hF : ∀ s, F (finalize s) = f s) (acts : List Activity) :
    sumSummary F (summarize_by_client acts) = sumStats f (summarize_core acts) := by
  simp [sumSummary, summarize_by_client, sumStats, Function.comp_def, hF]

theorem lookupStats_updateEntry (c c2 : String) (a : Activity)
    (l : List (String × Stats)) :
    lookupStats c2 (updateEntry c a l)
      = if c2 = c then some (addStats ((lookupStats c l).getD Stats.zero) a)
        else lookupStats c2 l := by
  induction l with
  | nil =>
      by_cases h : c2 = c
      · simp [updateEntry, lookupStats, h]
      · simp [updateEntry, lookupStats, h, Ne.symm h]
  | cons p rest ih =>
      obtain ⟨k, s⟩ := p
      by_cases hk : k = c
      · subst hk
        by_cases h2 : c2 = k
        · subst h2
          simp [updateEntry, lookupStats]
        · simp [updateEntry, lookupStats, h2, Ne.symm h2]
      · by_cases h2 : k = c2
        · subst h2
          simp [updateEntry, lookupStats, hk, Ne.symm hk]
        · simp [updateEntry, lookupStats, hk, h2, ih]

theorem lookupStats_foldl (f : Stats → Int) (g : Activity → Int)
    (_h0 : f Stats.zero = 0) (hadd : ∀ s a, f (addStats s a) = f s + g a)
    (c : String) (acts : List Activity) (l : List (String × Stats)) :
    f ((lookupStats c
          (acts.foldl (fun summary a => updateEntry (clientKey a) a summary) l)).getD
        Stats.zero)
      = f ((lookupStats c l).getD Stats.zero)
        + sumActs g (acts.filter (fun a => clientKey a = c)) := by
  induction acts generalizing l with
  | nil => simp [sumActs]
  | cons a rest ih =>
      simp only [List.foldl_cons]
      rw [ih]
      by_cases h : clientKey a = c
      · rw [lookupStats_updateEntry (clientKey a) c a l]
        simp [h, hadd, sumActs]
        ring
      · rw [lookupStats_updateEntry (clientKey a) c a l]
        simp [Ne.symm h, h, sumActs]

theorem lookupStats_summarize_core (f : Stats → Int) (g : Activity → Int)
    (h0 : f Stats.zero = 0) (hadd : ∀ s a, f (addStats s a) = f s + g a)
    (c : String) (acts : List Activity) :
    f ((lookupStats c (summarize_core acts)).getD Stats.zero)
      = sumActs g (acts.filter (fun a => clientKey a = c)) := by
  have h := lookupStats_foldl f g h0 hadd c acts []
  simp only [summarize_core] at h ⊢
  rw [h]
  simp [lookupStats, h0]

theorem lookupStats_isSome_foldl (c : String) (acts : List Activity)
    (l : List (String × Stats)) :
    (lookupStats c
        (acts.foldl (fun summary a => updateEntry (clientKey a) a summary) l)).isSome
      = ((lookupStats c l).isSome || acts.any (fun a => clientKey a = c)) := by
  induction acts generalizing l with
  | nil => simp
  | cons a rest ih =>
      simp only [List.foldl_cons]
      rw [ih, lookupStats_updateEntry (clientKey a) c a l]
      by_cases h : c = clientKey a
      · simp [h]
      · simp [h, Ne.symm h]

theorem lookupStats_isSome_summarize_core (c : String) (acts : List Activity) :
    (lookupStats c (summarize_core acts)).isSome
      = acts.any (fun a => clientKey a = c) := by
  have h := lookupStats_isSome_foldl c acts []
  simpa [summarize_core, lookupStats] using h

theorem keys_updateEntry (c : String) (a : Activity) (l : List (String × Stats)) :
    (updateEntry c a l).map Prod.fst = insertKey (l.map Prod.fst) c := by
  induction l with
  | nil => simp [updateEntry, insertKey]
  | cons p rest ih =>
      obtain ⟨k, s⟩ := p
      by_cases hk : k = c
      · subst hk
        simp [updateEntry, insertKey]
      · by_cases hm : c ∈ rest.map Prod.fst
        · simp [updateEntry, insertKey, hk, ih, hm, Ne.symm hk]
        · simp [updateEntry, insertKey, hk, ih, hm, Ne.symm hk]

theorem keys_foldl (acts : List Activity) (l : List (String × Stats)) :
    (acts.foldl (fun summary a => updateEntry (clientKey a) a summary) l).map Prod.fst
      = (acts.map clientKey).foldl insertKey (l.map Prod.fst) := by
  induction acts generalizing l with
  | nil => simp
  | cons a rest ih =>
      simp only [List.map_cons, List.foldl_cons]
      rw [ih, keys_updateEntry]

theorem keys_summarize_core (acts : List Activity) :
    (summarize_core acts).map Prod.fst = firstSeen (acts.map clientKey) := by
  have h := keys_foldl acts []
  simpa [summarize_core, firstSeen] using h

theorem keys_summarize_by_client (acts : List Activity) :
    (summarize_by_client acts).map Prod.fst = firstSeen (acts.map clientKey) := by
  simp [summarize_by_client, List.map_map, Function.comp_def, keys_summarize_core]

/-- An activity with every absent numeric field replaced by an explicit 0,
the client field untouched. -/
def fillNums (a : Activity) : Activity :=
  { client := a.client
    tracked := some (a.tracked.getD 0)
    keyboard := some (a.keyboard.getD 0)
    mouse := some (a.mouse.getD 0)
    input_tracked := some (a.input_tracked.getD 0) }

theorem addStats_fillNums (s : Stats) (a : Activity) :
    addStats s (fillNums a) = addStats s a := by
  simp [addStats, fillNums]

theorem updateEntry_fillNums (c : String) (a : Activity) (l : List (String × Stats)) :
    updateEntry c (fillNums a) l = updateEntry c a l := by
  induction l with
  | nil => simp [updateEntry, addStats_fillNums]
  | cons p rest ih =>
      obtain ⟨k, s⟩ := p
      by_cases hk : k = c <;> simp [updateEntry, hk, addStats_fillNums, ih]

theorem foldl_fillNums (acts : List Activity) (l : List (String × Stats)) :
    (acts.map fillNums).foldl (fun summary a => updateEntry (clientKey a) a summary) l
      = acts.foldl (fun summary a => updateEntry (clientKey a) a summary) l := by
  induction acts generalizing l with
  | nil => rfl
  | cons a rest ih =>
      simp only [List.map_cons, List.foldl_cons]
      have hkey : clientKey (fillNums a) = clientKey a := rfl
      rw [hkey, updateEntry_fillNums, ih]

/-- A page response with an absent activity list replaced by an explicit
empty one, everything else untouched. -/
def fillPage (p : PageResponse) : PageResponse :=
  { p with activities := some (p.activities.getD []) }

theorem fetchLoop_fillPage (pages : List PageResponse) :
    fetchLoop (pages.map fillPage) = fetchLoop pages := by
  induction pages with
  | nil => rfl
  | cons p rest ih => simp [fetchLoop, fillPage, ih]

theorem fetchLoop_append (middle : List PageResponse) (last : PageResponse)
    (extra : List PageResponse)
    (hmid : ∀ p ∈ middle, p.status = 200 ∧ cursorContinues p.next_page_start_id = true)
    (hlast : last.status = 200)
    (hstop : cursorContinues last.next_page_start_id = false) :
    fetchLoop (middle ++ last :: extra)
      = Except.ok (((middle ++ [last]).map (fun p => p.activities.getD [])).flatten) := by
  induction middle with
  | nil => simp [fetchLoop, hlast, hstop]
  | cons p rest ih =>
      obtain ⟨h200, hcur⟩ := hmid p (List.mem_cons_self p rest)
      have ih2 := ih (fun q hq => hmid q (List.mem_cons_of_mem p hq))
      simp [fetchLoop, h200, hcur, ih2]

theorem lookupSummary_summarize (c : String) (acts : List Activity) :
    lookupSummary c (summarize_by_client acts)
      = (lookupStats c (summarize_core acts)).map finalize := by
  simp only [summarize_by_client]
  induction summarize_core acts with
  | nil => simp [lookupSummary, lookupStats]
  | cons p rest ih =>
      obtain ⟨k, s⟩ := p
      by_cases h : k = c <;> simp [lookupSummary, lookupStats, h, ih]

theorem refreshAndCache_ok (now : Int) (resp : TokenResponse) (out : TokenOutcome)
    (hok : refreshAndCache now resp = Except.ok out) :
    out = ⟨resp.access_token,
      CacheState.valid ⟨resp.access_token, now + (resp.expires_in - 60)⟩, true⟩ := by
  unfold refreshAndCache refresh_access_token at hok
  by_cases h : resp.status = 200
  · simp [h] at hok
    exact hok.symm
  · simp [h] at hok

/-! Theorems settling the claims. -/

/-- C1: for every list of activity records the per-client summary produced
by `summarize_by_client` conserves each metric exactly — the sum over all
clients of the summary's `tracked` equals the sum of `tracked` over all
input records, and likewise for `keyboard`, `mouse` and `input_tracked` —
and a client whose activities carry no tracked seconds still appears, with
a `tracked` total of 0. -/
theorem C1_summary_conserves_metrics (acts : List Activity) :
    sumSummary (fun s => s.tracked) (summarize_by_client acts) = sumActs trackedOf acts
    ∧ sumSummary (fun s => s.keyboard) (summarize_by_client acts) = sumActs keyboardOf acts
    ∧ sumSummary (fun s => s.mouse) (summarize_by_client acts) = sumActs mouseOf acts
    ∧ sumSummary (fun s => s.input_tracked) (summarize_by_client acts)
        = sumActs inputTrackedOf acts
    ∧ ∀ c, (∃ a ∈ acts, clientKey a = c) →
        (∀ a ∈ acts, clientKey a = c → trackedOf a = 0) →
        ∃ s, lookupSummary c (summarize_by_client acts) = some s ∧ s.tracked = 0 := by
  refine ⟨?_, ?_, ?_, ?_, ?_⟩
  · rw [sumSummary_summarize _ (fun s => s.tracked) (fun s => rfl),
      sumStats_summarize_core _ trackedOf rfl (fun s a => rfl)]
  · rw [sumSummary_summarize _ (fun s => s.keyboard) (fun s => rfl),
      sumStats_summarize_core _ keyboardOf rfl (fun s a => rfl)]
  · rw [sumSummary_summarize _ (fun s => s.mouse) (fun s => rfl),
      sumStats_summarize_core _ mouseOf rfl (fun s a => rfl)]
  · rw [sumSummary_summarize _ (fun s => s.input_tracked) (fun s => rfl),
      sumStats_summarize_core _ inputTrackedOf rfl (fun s a => rfl)]
  · rintro c ⟨a, ha, hk⟩ hz
    have hsome : (lookupStats c (summarize_core acts)).isSome := by
      rw [lookupStats_isSome_summarize_core]
      exact List.any_eq_true.mpr ⟨a, ha, by simp [hk]⟩
    obtain ⟨st, hst⟩ := Option.isSome_iff_exists.mp hsome
    refine ⟨finalize st, ?_, ?_⟩
    · rw [lookupSummary_summarize, hst]
      rfl
    · have hval := lookupStats_summarize_core (fun s => s.tracked) trackedOf rfl
        (fun s a => rfl) c acts
      rw [hst] at hval
      have hzero : sumActs trackedOf (acts.filter (fun x => clientKey x = c)) = 0 := by
        apply List.sum_eq_zero
        intro x hx
        obtain ⟨b, hb, hbx⟩ := List.mem_map.mp hx
        obtain ⟨hbacts, hbkey⟩ := List.mem_filter.mp hb
        rw [← hbx]
        exact hz b hbacts (by simpa using hbkey)
      simp only [Option.getD_some] at hval
      show st.tracked = 0
      rw [hval]
      exact hzero

/-- C1 witness: the conservation and the zero-total clause instantiated at
a concrete two-record list whose second record has no tracked seconds. -/
theorem C1_witness :
    sumSummary (fun s => s.tracked)
        (summarize_by_client
          [⟨some "A", some 3, none, none, none⟩, ⟨some "B", none, some 4, none, none⟩])
      = sumActs trackedOf
          [⟨some "A", some 3, none, none, none⟩, ⟨some "B", none, some 4, none, none⟩]
    ∧ ∃ s, lookupSummary "B"
          (summarize_by_client
            [⟨some "A", some 3, none, none, none⟩, ⟨some "B", none, some 4, none, none⟩])
        = some s ∧ s.tracked = 0 :=
  ⟨(C1_summary_conserves_metrics
      [⟨some "A", some 3, none, none, none⟩, ⟨some "B", none, some 4, none, none⟩]).1,
   (C1_summary_conserves_metrics
      [⟨some "A", some 3, none, none, none⟩, ⟨some "B", none, some 4, none, none⟩]).2.2.2.2
     "B" (by decide) (by decide)⟩

/-- C8: an activity record lacking a `client` field is aggregated under the
key `"unknown"`: the record counts among the `"unknown"`-keyed records and
the summary's `"unknown"` entry totals exactly those records' metrics. -/
theorem C8_missing_client_unknown (acts : List Activity) (a : Activity)
    (ha : a ∈ acts) (hc : a.client = none) :
    a ∈ acts.filter (fun x => clientKey x = "unknown")
    ∧ ∃ s, lookupSummary "unknown" (summarize_by_client acts) = some s
        ∧ s.tracked = sumActs trackedOf (acts.filter (fun x => clientKey x = "unknown"))
        ∧ s.keyboard = sumActs keyboardOf (acts.filter (fun x => clientKey x = "unknown"))
        ∧ s.mouse = sumActs mouseOf (acts.filter (fun x => clientKey x = "unknown"))
        ∧ s.input_tracked
            = sumActs inputTrackedOf (acts.filter (fun x => clientKey x = "unknown")) := by
  have hkey : clientKey a = "unknown" := by simp [clientKey, hc]
  constructor
  · exact List.mem_filter.mpr ⟨ha, by simp [hkey]⟩
  · have hsome : (lookupStats "unknown" (summarize_core acts)).isSome := by
      rw [lookupStats_isSome_summarize_core]
      exact List.any_eq_true.mpr ⟨a, ha, by simp [hkey]⟩
    obtain ⟨st, hst⟩ := Option.isSome_iff_exists.mp hsome
    refine ⟨finalize st, ?_, ?_, ?_, ?_, ?_⟩
    · rw [lookupSummary_summarize, hst]
      rfl
    · have h := lookupStats_summarize_core (fun s => s.tracked) trackedOf rfl
        (fun s a => rfl) "unknown" acts
      rw [hst] at h
      simpa using h
    · have h := lookupStats_summarize_core (fun s => s.keyboard) keyboardOf rfl
        (fun s a => rfl) "unknown" acts
      rw [hst] at h
      simpa using h
    · have h := lookupStats_summarize_core (fun s => s.mouse) mouseOf rfl
        (fun s a => rfl) "unknown" acts
      rw [hst] at h
      simpa using h
    · have h := lookupStats_summarize_core (fun s => s.input_tracked) inputTrackedOf rfl
        (fun s a => rfl) "unknown" acts
      rw [hst] at h
      simpa using h

/-- C8 witness: a concrete record with no client field lands in the
`"unknown"` entry with its metrics. -/
theorem C8_witness :
    (⟨none, some 7, some 1, none, none⟩ : Activity)
        ∈ List.filter (fun x => clientKey x = "unknown")
            [⟨none, some 7, some 1, none, none⟩]
    ∧ ∃ s, lookupSummary "unknown"
          (summarize_by_client [⟨none, some 7, some 1, none, none⟩]) = some s
        ∧ s.tracked = sumActs trackedOf
            (List.filter (fun x => clientKey x = "unknown")
              [⟨none, some 7, some 1, none, none⟩])
        ∧ s.keyboard = sumActs keyboardOf
            (List.filter (fun x => clientKey x = "unknown")
              [⟨none, some 7, some 1, none, none⟩])
        ∧ s.mouse = sumActs mouseOf
            (List.filter (fun x => clientKey x = "unknown")
              [⟨none, some 7, some 1, none, none⟩])
        ∧ s.input_tracked = sumActs inputTrackedOf
            (List.filter (fun x => clientKey x = "unknown")
              [⟨none, some 7, some 1, none, none⟩]) :=
  C8_missing_client_unknown [⟨none, some 7, some 1, none, none⟩]
    ⟨none, some 7, some 1, none, none⟩ (by decide) rfl

/-- C9: every client summary's `tracked_hours` is its accumulated tracked
seconds divided by 3600 and rounded to 2 decimal places; in particular a
client with `tracked = 7384` gets `tracked_hours = 2.05`. -/
theorem C9_tracked_hours_rounding :
    (∀ (acts : List Activity) (c : String) (s : ClientSummary),
        lookupSummary c (summarize_by_client acts) = some s →
        s.tracked_hours = round2 ((s.tracked : ℚ) / 3600))
    ∧ lookupSummary "X" (summarize_by_client [⟨some "X", some 7384, none, none, none⟩])
        = some ⟨7384, 0, 0, 0, (205 : ℚ) / 100⟩ := by
  constructor
  · intro acts c s hs
    rw [lookupSummary_summarize] at hs
    cases hst : lookupStats c (summarize_core acts) with
    | none => rw [hst] at hs; simp at hs
    | some st =>
        rw [hst] at hs
        have hfs : finalize st = s := by simpa using hs
        rw [← hfs]
        rfl
  · rw [show summarize_by_client [⟨some "X", some 7384, none, none, none⟩]
        = [("X", ⟨7384, 0, 0, 0, (205 : ℚ) / 100⟩)] from by
      simp only [summarize_by_client, summarize_core, List.foldl, updateEntry, clientKey,
        addStats, Stats.zero, finalize, List.map, round2, roundHalfEven]
      norm_num [Rat.floor_def']]
    simp [lookupSummary]

/-- C9 witness: the derivation law applied to the concrete `tracked = 7384`
entry, whose hours come out as 2.05. -/
theorem C9_witness :
    (⟨7384, 0, 0, 0, (205 : ℚ) / 100⟩ : ClientSummary).tracked_hours
      = round2 (((⟨7384, 0, 0, 0, (205 : ℚ) / 100⟩ : ClientSummary).tracked : ℚ) / 3600) :=
  C9_tracked_hours_rounding.1 [⟨some "X", some 7384, none, none, none⟩] "X"
    ⟨7384, 0, 0, 0, (205 : ℚ) / 100⟩ C9_tracked_hours_rounding.2

/-- C10: an activity record with absent numeric fields is accumulated with
those fields read as 0 (replacing the absent fields by explicit zeros
changes nothing, and the present fields still count), and a page response
lacking an activities list acts as an empty page, not as a failure. -/
theorem C10_missing_fields_defaults (acts : List Activity) (pages : List PageResponse) :
    summarize_by_client (acts.map fillNums) = summarize_by_client acts
    ∧ fetch_activities (pages.map fillPage) = fetch_activities pages
    ∧ fetch_activities [⟨200, "", none, none⟩] = Except.ok []
    ∧ summarize_by_client [⟨some "A", none, some 7, none, none⟩]
        = [("A", ⟨0, 7, 0, 0, 0⟩)] := by
  refine ⟨?_, ?_, rfl, ?_⟩
  · simp [summarize_by_client, summarize_core, foldl_fillNums]
  · exact fetchLoop_fillPage pages
  · simp only [summarize_by_client, summarize_core, List.foldl, updateEntry, clientKey,
      addStats, Stats.zero, finalize, List.map, round2, roundHalfEven]
    norm_num [Rat.floor_def']

/-- C2 as stated is refuted by an empty-string cursor: the first page
carries a `next_page_start_id` (the empty string), yet the loop's
truthiness test `if not page_start_id` stops after page one, so the result
is not the two pages' concatenation. -/
theorem C2_counterexample :
    fetch_activities
        [⟨200, "", some [⟨some "A", some 1, none, none, none⟩], some ""⟩,
         ⟨200, "", some [⟨some "B", some 2, none, none, none⟩], none⟩]
      = Except.ok [⟨some "A", some 1, none, none, none⟩]
    ∧ (Except.ok [⟨some "A", some 1, none, none, none⟩]
        : Except RunError (List Activity))
      ≠ Except.ok [⟨some "A", some 1, none, none, none⟩,
          ⟨some "B", some 2, none, none, none⟩] := by
  refine ⟨rfl, ?_⟩
  intro h
  injection h with h2
  injection h2 with h3 h4
  exact List.noConfusion h4

/-- C2 amended: when every page before the last carries a truthy
(non-empty) cursor and the last page's cursor is absent or empty,
`fetch_activities` returns exactly the concatenation of the pages' activity
lists — in page order, nothing duplicated, later responses ignored — and
the count of records equals the sum of the page sizes. -/
theorem C2_fetch_concatenates (middle : List PageResponse) (last : PageResponse)
    (extra : List PageResponse)
    (hmid : ∀ p ∈ middle, p.status = 200 ∧ cursorContinues p.next_page_start_id = true)
    (hlast : last.status = 200)
    (hstop : cursorContinues last.next_page_start_id = false) :
    fetch_activities (middle ++ last :: extra)
      = Except.ok (((middle ++ [last]).map (fun p => p.activities.getD [])).flatten)
    ∧ ∀ acts, fetch_activities (middle ++ last :: extra) = Except.ok acts →
        acts.length = ((middle ++ [last]).map (fun p => (p.activities.getD []).length)).sum := by
  have h := fetchLoop_append middle last extra hmid hlast hstop
  refine ⟨h, ?_⟩
  intro acts hacts
  rw [fetch_activities, h] at hacts
  rw [← Except.ok.inj hacts]
  simp [List.length_flatten, List.map_map, Function.comp_def]

/-- C2 witness: a two-page fetch with a truthy cursor on the first page
returns both pages' records in order. -/
theorem C2_witness :
    fetch_activities
        [⟨200, "", some [⟨some "A", some 1, none, none, none⟩], some "cur"⟩,
         ⟨200, "", some [⟨some "B", some 2, none, none, none⟩], none⟩]
      = Except.ok [⟨some "A", some 1, none, none, none⟩,
          ⟨some "B", some 2, none, none, none⟩] := by
  have h := (C2_fetch_concatenates
      [⟨200, "", some [⟨some "A", some 1, none, none, none⟩], some "cur"⟩]
      ⟨200, "", some [⟨some "B", some 2, none, none, none⟩], none⟩ []
      (by decide) rfl rfl).1
  simpa using h

/-- C3 as stated is refuted: with an existing but unparsable cache file and
a healthy token endpoint, `get_access_token` does not recover with a
refresh — the `json.load` exception propagates, so the call fails instead
of returning a token. -/
theorem C3_counterexample :
    get_access_token 0 CacheState.invalid ⟨200, "", "fresh", "r0", 3600⟩
      = Except.error RunError.jsonParse
    ∧ get_access_token 0 CacheState.invalid ⟨200, "", "fresh", "r0", 3600⟩
      ≠ Except.ok ⟨"fresh", CacheState.valid ⟨"fresh", 3540⟩, true⟩ :=
  ⟨rfl, fun h => Except.noConfusion h⟩

/-- C3 amended: only the absence of the cache file is treated as a cache
miss — `get_access_token` then refreshes and returns the fresh token — while
a parse error on an existing cache file is not caught and aborts the call
with the parse failure. -/
theorem C3_cache_miss_behaviour (now : Int) (resp : TokenResponse)
    (hok : resp.status = 200) :
    get_access_token now CacheState.absent resp
      = Except.ok ⟨resp.access_token,
          CacheState.valid ⟨resp.access_token, now + (resp.expires_in - 60)⟩, true⟩
    ∧ get_access_token now CacheState.invalid resp = Except.error RunError.jsonParse := by
  constructor
  · simp [get_access_token, refreshAndCache, refresh_access_token, hok]
  · rfl

/-- C3 witness: the amended behaviour at a concrete clock and healthy
endpoint response. -/
theorem C3_witness :
    get_access_token 100 CacheState.absent ⟨200, "", "tok", "r1", 3600⟩
      = Except.ok ⟨"tok", CacheState.valid ⟨"tok", 3640⟩, true⟩
    ∧ get_access_token 100 CacheState.invalid ⟨200, "", "tok", "r1", 3600⟩
      = Except.error RunError.jsonParse :=
  C3_cache_miss_behaviour 100 ⟨200, "", "tok", "r1", 3600⟩ rfl

/-- C4: `get_access_token` refreshes exactly when the cached record is no
longer valid — with `expires_at` strictly in the future it returns the
cached token unchanged, with no refresh and no dependence on the token
endpoint; with `expires_at` at or before now it takes the refresh path. -/
theorem C4_refresh_iff_expired (now : Int) (td : TokenData) (resp : TokenResponse) :
    (now < td.expires_at →
        get_access_token now (CacheState.valid td) resp
          = Except.ok ⟨td.access_token, CacheState.valid td, false⟩)
    ∧ (td.expires_at ≤ now →
        get_access_token now (CacheState.valid td) resp = refreshAndCache now resp) := by
  constructor
  · intro h
    simp [get_access_token, h]
  · intro h
    simp [get_access_token, not_lt.mpr h]

/-- C4 witness: a still-valid cached token is returned as-is, and a token
expiring exactly now goes through the refresh path. -/
theorem C4_witness :
    get_access_token 5 (CacheState.valid ⟨"tok", 10⟩) ⟨200, "", "t2", "r2", 3600⟩
      = Except.ok ⟨"tok", CacheState.valid ⟨"tok", 10⟩, false⟩
    ∧ get_access_token 10 (CacheState.valid ⟨"tok", 10⟩) ⟨200, "", "t2", "r2", 3600⟩
      = refreshAndCache 10 ⟨200, "", "t2", "r2", 3600⟩ :=
  ⟨(C4_refresh_iff_expired 5 ⟨"tok", 10⟩ ⟨200, "", "t2", "r2", 3600⟩).1 (by decide),
   (C4_refresh_iff_expired 10 ⟨"tok", 10⟩ ⟨200, "", "t2", "r2", 3600⟩).2 (by decide)⟩

/-- C5: a non-200 token-endpoint response makes `refresh_access_token`
raise a fatal error carrying the status code and response body, and a run
that needs a refresh aborts with that error whatever the activities
endpoint would answer — no fetch is attempted and no CSV is produced. -/
theorem C5_bad_auth_aborts_run (now : Int) (cache : CacheState) (resp : TokenResponse)
    (hbad : resp.status ≠ 200)
    (hmiss : cache = CacheState.absent
      ∨ ∃ td, cache = CacheState.valid td ∧ td.expires_at ≤ now) :
    refresh_access_token resp = Except.error (RunError.authFailed resp.status resp.body)
    ∧ ∀ pages, run_main now cache resp pages
        = Except.error (RunError.authFailed resp.status resp.body) := by
  have hr : refresh_access_token resp
      = Except.error (RunError.authFailed resp.status resp.body) := by
    simp [refresh_access_token, hbad]
  refine ⟨hr, ?_⟩
  intro pages
  have hg : get_access_token now cache resp
      = Except.error (RunError.authFailed resp.status resp.body) := by
    rcases hmiss with h | ⟨td, hc, hexp⟩
    · subst h
      simp [get_access_token, refreshAndCache, hr]
    · subst hc
      simp [get_access_token, not_lt.mpr hexp, refreshAndCache, hr]
  simp [run_main, hg]

/-- C5 witness: a 401 from the token endpoint aborts a cache-miss run with
the auth error even though the activities endpoint holds a healthy page. -/
theorem C5_witness :
    run_main 0 CacheState.absent ⟨401, "denied", "x", "y", 3600⟩
        [⟨200, "", some [⟨some "A", some 1, none, none, none⟩], none⟩]
      = Except.error (RunError.authFailed 401 "denied") :=
  (C5_bad_auth_aborts_run 0 CacheState.absent ⟨401, "denied", "x", "y", 3600⟩
      (by decide) (Or.inl rfl)).2
    [⟨200, "", some [⟨some "A", some 1, none, none, none⟩], none⟩]

/-- C6: whenever `get_access_token` performs a refresh and succeeds, it
returns the provider's fresh token and the cache file afterwards holds
exactly the pair of that token and `expires_at = now + (expires_in - 60)`. -/
theorem C6_refresh_persists_buffered_expiry (now : Int) (cache : CacheState)
    (resp : TokenResponse) (out : TokenOutcome)
    (hok : get_access_token now cache resp = Except.ok out)
    (hr : out.refreshed = true) :
    out.token = resp.access_token
    ∧ out.cacheAfter
        = CacheState.valid ⟨resp.access_token, now + (resp.expires_in - 60)⟩ := by
  cases cache with
  | absent =>
      rw [show get_access_token now CacheState.absent resp = refreshAndCache now resp
          from rfl] at hok
      rw [refreshAndCache_ok now resp out hok]
      exact ⟨rfl, rfl⟩
  | invalid => exact Except.noConfusion hok
  | valid td =>
      by_cases hlt : now < td.expires_at
      · rw [show get_access_token now (CacheState.valid td) resp
            = Except.ok ⟨td.access_token, CacheState.valid td, false⟩
            from by simp [get_access_token, hlt]] at hok
        rw [← Except.ok.inj hok] at hr
        exact Bool.noConfusion hr
      · rw [show get_access_token now (CacheState.valid td) resp = refreshAndCache now resp
            from by simp [get_access_token, hlt]] at hok
        rw [refreshAndCache_ok now resp out hok]
        exact ⟨rfl, rfl⟩

/-- C6 witness: a concrete successful refresh stores the fresh token with
the 60-second safety buffer applied to the provider lifetime. -/
theorem C6_witness :
    (⟨"t", CacheState.valid ⟨"t", 3550⟩, true⟩ : TokenOutcome).token
        = (⟨200, "", "t", "r", 3600⟩ : TokenResponse).access_token
    ∧ (⟨"t", CacheState.valid ⟨"t", 3550⟩, true⟩ : TokenOutcome).cacheAfter
        = CacheState.valid ⟨"t", 10 + (3600 - 60)⟩ :=
  C6_refresh_persists_buffered_expiry 10 CacheState.absent ⟨200, "", "t", "r", 3600⟩
    ⟨"t", CacheState.valid ⟨"t", 3550⟩, true⟩ rfl rfl

/-- C7: `export_to_csv` writes first the exact header row, then one data
row per client in the summary's insertion (first-seen) order; the summary
of a single `A` record with `tracked = 3600`, `keyboard = 10`, `mouse = 5`,
`input_tracked = 20` yields the data row `A,3600,1.0,10,5,20`, and that row
re-parses to the identical values. -/
theorem C7_export_header_order_roundtrip :
    (∀ summary : List (String × ClientSummary),
        export_to_csv summary
          = "client,tracked_seconds,tracked_hours,keyboard,mouse,input_tracked"
              :: summary.map (fun p => csvRow (summaryCells p.1 p.2)))
    ∧ (∀ acts : List Activity,
        (summarize_by_client acts).map Prod.fst = firstSeen (acts.map clientKey))
    ∧ summarize_by_client [⟨some "A", some 3600, some 10, some 5, some 20⟩]
        = [("A", ⟨3600, 10, 5, 20, 1⟩)]
    ∧ export_to_csv [("A", ⟨3600, 10, 5, 20, 1⟩)]
        = ["client,tracked_seconds,tracked_hours,keyboard,mouse,input_tracked",
           "A,3600,1.0,10,5,20"]
    ∧ parseRow "A,3600,1.0,10,5,20" = ["A", "3600", "1.0", "10", "5", "20"]
    ∧ parseInt "3600" = some 3600
    ∧ parseDec "1.0" = some 1
    ∧ parseInt "10" = some 10
    ∧ parseInt "5" = some 5
    ∧ parseInt "20" = some 20 := by
  refine ⟨?_, keys_summarize_by_client, ?_, ?_, by decide, by decide, ?_, by decide,
    by decide, by decide⟩
  · intro summary
    rw [export_to_csv, show csvRow headerCells
        = "client,tracked_seconds,tracked_hours,keyboard,mouse,input_tracked" from by decide]
  · simp only [summarize_by_client, summarize_core, List.foldl, updateEntry, clientKey,
      addStats, Stats.zero, finalize, List.map, round2, roundHalfEven]
    norm_num [Rat.floor_def']
  · have h : Rat.floor ((1 : ℚ) * 100) = 100 := by norm_num [Rat.floor_def']
    simp only [export_to_csv, summaryCells, render_float, h, List.map]
    decide
  · rw [parseDec, show parseDecParts "1.0" = some ⟨false, 1, 0, 1⟩ from by decide]
    norm_num [decValue]

end Hubstaff
